import Mathlib

/-!
# Verification of the task-manager request pipeline

Shallow embedding, in Lean 4, of the core request-handling code of the
task-manager web application: Zod validation schemas (`src/lib/zod.ts`),
CORS header generation (`src/lib/csp.ts`), the cache service and its
pattern-based invalidation (`CacheService`), the rate-limit wrapper
(`checkRateLimit`), the task route handlers
(GET/POST `/api/tasks`, GET/PUT/DELETE `/api/tasks/[id]`), and the
archival sweep (`/api/admin/archive-tasks`).

Timestamps are `Nat` milliseconds; JSON bodies are association lists of
field name to a JSON value; the database is a list of task rows with
row-level security modelled as owner filtering.
-/

/-- Task status: the closed enum `'todo' | 'in_progress' | 'done' | 'archived'`
from `src/lib/zod.ts`. -/
inductive Status where
  | todo
  | in_progress
  | done
  | archived
deriving DecidableEq, Repr

/-- A row of the `tasks` table (`src/lib/zod.ts` type `TaskRow`); `due_date` is
kept as the raw transmitted string. -/
structure TaskRow where
  id : String
  user_id : String
  title : String
  description : Option String
  status : Status
  due_date : Option String
  created_at : Nat
  updated_at : Nat
deriving DecidableEq, Repr

/-- A JSON value as far as the validation layer distinguishes them: a string,
or anything else. -/
inductive JVal where
  | str (s : String)
  | other
deriving DecidableEq, Repr

/-- A parsed JSON request body: an association list of field name to value
(keys unique after `JSON.parse`). -/
abbrev Body : Type := List (String × JVal)

/-- Value of a field of the body, if present. -/
def fieldVal (b : Body) (k : String) : Option JVal :=
  (b.find? (fun p => p.1 == k)).map (fun p => p.2)

/-- The body contains the given field name. -/
def hasField (b : Body) (k : String) : Bool :=
  b.any (fun p => p.1 == k)

/-- The field names `TaskCreateSchema` recognizes (`.strict()` rejects all
others). -/
def knownTaskFields : List String :=
  ["title", "description", "status", "due_date"]

/-- `z.enum(["todo","in_progress","done","archived"])`: decode a status
string. -/
def parseStatus (s : String) : Option Status :=
  if s = "todo" then some Status.todo
  else if s = "in_progress" then some Status.in_progress
  else if s = "done" then some Status.done
  else if s = "archived" then some Status.archived
  else none

/-- Issues of the `title` field of `TaskCreateSchema`:
`z.string().min(1).max(120)`, required. -/
def titleIssues (b : Body) : List String :=
  match fieldVal b "title" with
  | none => ["title: Required"]
  | some (JVal.str s) =>
      (if s.length < 1 then ["title: Title is required"] else [])
        ++ (if 120 < s.length then ["title: Title must be less than 120 characters"] else [])
  | some JVal.other => ["title: Expected string"]

/-- Issues of the optional `description` field: `z.string().max(2000).optional()`. -/
def descriptionIssues (b : Body) : List String :=
  match fieldVal b "description" with
  | none => []
  | some (JVal.str s) =>
      if 2000 < s.length then ["description: Description must be less than 2000 characters"] else []
  | some JVal.other => ["description: Expected string"]

/-- Issues of the `status` field: `z.enum([...])`, required (the schema has
no `.optional()` and no default on `status`). -/
def statusIssues (b : Body) : List String :=
  match fieldVal b "status" with
  | none => ["status: Required"]
  | some (JVal.str s) =>
      match parseStatus s with
      | some _ => []
      | none => ["status: Invalid enum value"]
  | some JVal.other => ["status: Expected enum value"]

/-- Issues of the optional `due_date` field:
`z.union([z.string(), z.date()]).optional()` — in a JSON body only the
string arm is inhabited. -/
def dueDateIssues (b : Body) : List String :=
  match fieldVal b "due_date" with
  | none => []
  | some (JVal.str _) => []
  | some JVal.other => ["due_date: Expected string or date"]

/-- Issues of `.strict()`: every key of the body must be a recognized field. -/
def strictIssues (b : Body) : List String :=
  if b.all (fun p => knownTaskFields.contains p.1) then []
  else ["unrecognized_keys"]

/-- All validation issues `TaskCreateSchema.safeParse` reports for a body. -/
def taskCreateIssues (b : Body) : List String :=
  strictIssues b ++ titleIssues b ++ descriptionIssues b
    ++ statusIssues b ++ dueDateIssues b

/-- The payload produced by a successful `TaskCreateSchema` parse. -/
structure TaskCreateData where
  title : String
  description : Option String
  status : Status
  due_date : Option String
deriving DecidableEq, Repr

/-- Read the parsed fields out of a body that passed validation (defaults are
unreachable when `taskCreateIssues b = []`). -/
def taskCreateExtract (b : Body) : TaskCreateData :=
  { title := match fieldVal b "title" with
             | some (JVal.str s) => s
             | _ => ""
    description := match fieldVal b "description" with
                   | some (JVal.str s) => some s
                   | _ => none
    status := match fieldVal b "status" with
              | some (JVal.str s) => (parseStatus s).getD Status.todo
              | _ => Status.todo
    due_date := match fieldVal b "due_date" with
                | some (JVal.str s) => some s
                | _ => none }

/-- `TaskCreateSchema.safeParse`: succeed exactly when no issue is reported,
otherwise return the field-level issue list. -/
def taskCreateSafeParse (b : Body) : Except (List String) TaskCreateData :=
  match taskCreateIssues b with
  | [] => Except.ok (taskCreateExtract b)
  | i => Except.error i

/-- The payload produced by a successful `TaskUpdateSchema` parse
(`TaskCreateSchema.partial().strict()`: every field optional). -/
structure TaskUpdateData where
  title : Option String
  description : Option String
  status : Option Status
  due_date : Option String
deriving DecidableEq, Repr

/-- Issues of the now-optional `title` field of `TaskUpdateSchema`. -/
def titleIssuesOpt (b : Body) : List String :=
  match fieldVal b "title" with
  | none => []
  | some (JVal.str s) =>
      (if s.length < 1 then ["title: Title is required"] else [])
        ++ (if 120 < s.length then ["title: Title must be less than 120 characters"] else [])
  | some JVal.other => ["title: Expected string"]

/-- Issues of the now-optional `status` field of `TaskUpdateSchema`. -/
def statusIssuesOpt (b : Body) : List String :=
  match fieldVal b "status" with
  | none => []
  | some (JVal.str s) =>
      match parseStatus s with
      | some _ => []
      | none => ["status: Invalid enum value"]
  | some JVal.other => ["status: Expected enum value"]

/-- All validation issues `TaskUpdateSchema.safeParse` reports for a body. -/
def taskUpdateIssues (b : Body) : List String :=
  strictIssues b ++ titleIssuesOpt b ++ descriptionIssues b
    ++ statusIssuesOpt b ++ dueDateIssues b

/-- Read the parsed optional fields out of a body that passed
`TaskUpdateSchema`. -/
def taskUpdateExtract (b : Body) : TaskUpdateData :=
  { title := match fieldVal b "title" with
             | some (JVal.str s) => some s
             | _ => none
    description := match fieldVal b "description" with
                   | some (JVal.str s) => some s
                   | _ => none
    status := match fieldVal b "status" with
              | some (JVal.str s) => parseStatus s
              | _ => none
    due_date := match fieldVal b "due_date" with
                | some (JVal.str s) => some s
                | _ => none }

/-- `TaskUpdateSchema.safeParse`. -/
def taskUpdateSafeParse (b : Body) : Except (List String) TaskUpdateData :=
  match taskUpdateIssues b with
  | [] => Except.ok (taskUpdateExtract b)
  | i => Except.error i

/-- `getCORSHeaders` from `src/lib/csp.ts`: the header map derived from the
request `Origin` and the configured allow-list (`CORS_ORIGINS` split on
commas, defaulting to `["http://localhost:3000"]`). -/
def getCORSHeaders (allowedOrigins : List String) (origin : Option String) :
    List (String × String) :=
  let base := [("Access-Control-Allow-Methods", "GET, POST, PUT, DELETE, OPTIONS"),
               ("Access-Control-Allow-Headers", "Content-Type, Authorization, X-Requested-With"),
               ("Access-Control-Max-Age", "86400")]
  if origin = some "null" then
    base ++ [("Access-Control-Allow-Origin", "null"),
             ("Access-Control-Allow-Credentials", "true")]
  else
    match origin with
    | some o =>
        if allowedOrigins.contains o then
          base ++ [("Access-Control-Allow-Origin", o),
                   ("Access-Control-Allow-Credentials", "true")]
        else base
    | none => base

/-- The default allow-list when `CORS_ORIGINS` is unset. -/
def defaultAllowedOrigins : List String := ["http://localhost:3000"]

/-- Value of a header in a header map. -/
def headerVal (hs : List (String × String)) (k : String) : Option String :=
  (hs.find? (fun p => p.1 == k)).map (fun p => p.2)

/-- Redis glob matching, restricted to the `*` wildcard — the only
metacharacter occurring in the patterns `CacheService` ever builds
(`*:{userId}*` with an id free of metacharacters). `*` matches any
sequence of characters; every other pattern character matches itself. -/
def globMatch : List Char → List Char → Bool
  | [], ks => ks.isEmpty
  | p :: ps, ks =>
      if p = '*' then ks.tails.any (fun t => globMatch ps t)
      else
        match ks with
        | [] => false
        | k :: ks' => p == k && globMatch ps ks'

/-- Cache key for a user's task collection (`CacheService.getUserTasksKey`):
`tasks:{userId}`. -/
def getUserTasksKey (userId : String) : String := "tasks:" ++ userId

/-- Cache key for a single task (`CacheService.getUserTaskKey`):
`task:{userId}:{taskId}`. -/
def getUserTaskKey (userId taskId : String) : String :=
  "task:" ++ userId ++ ":" ++ taskId

/-- The glob pattern `CacheService.invalidateUserCache` passes to
`redis.keys`: `*:{userId}*`. -/
def userCachePattern (userId : String) : String := "*:" ++ userId ++ "*"

/-- The backing key-value store: an association list of key to serialized
value. -/
abbrev CacheStore : Type := List (String × String)

/-- `CacheService.invalidatePattern`: `redis.keys(pattern)` followed by
`redis.del(...keys)` — every key matching the glob is removed. -/
def invalidatePattern (pat : String) (store : CacheStore) : CacheStore :=
  store.filter (fun kv => !(globMatch pat.data kv.1.data))

/-- `CacheService.invalidateUserCache`: invalidate the pattern
`*:{userId}*`. -/
def invalidateUserCache (userId : String) (store : CacheStore) : CacheStore :=
  invalidatePattern (userCachePattern userId) store

/-- JavaScript `String.prototype.includes`: the needle occurs as a
contiguous substring of the haystack. -/
def strIncludes (hay needle : String) : Bool :=
  hay.data.tails.any (fun t => needle.data.isPrefixOf t)

theorem globMatch_nil_pat (ks : List Char) : globMatch [] ks = ks.isEmpty := by
  simp [globMatch]

theorem globMatch_star (ps ks : List Char) :
    globMatch ('*' :: ps) ks = ks.tails.any (fun t => globMatch ps t) := by
  simp [globMatch]

theorem globMatch_lit_nil (p : Char) (ps : List Char) (hp : p ≠ '*') :
    globMatch (p :: ps) [] = false := by
  simp [globMatch, hp]

theorem globMatch_lit_cons (p k : Char) (ps ks : List Char) (hp : p ≠ '*') :
    globMatch (p :: ps) (k :: ks) = (p == k && globMatch ps ks) := by
  simp [globMatch, hp]

theorem globMatch_lits_star (lits : List Char) (h : '*' ∉ lits) (ks : List Char) :
    globMatch (lits ++ ['*']) ks = true ↔ lits <+: ks := by
  induction lits generalizing ks with
  | nil =>
      simp only [List.nil_append, globMatch_star, globMatch_nil_pat,
        List.any_eq_true, List.mem_tails]
      constructor
      · intro _; exact List.nil_prefix
      · intro _
        exact ⟨[], List.nil_suffix, by simp⟩
  | cons p lits ih =>
      have hp : p ≠ '*' := fun e => h (e ▸ List.mem_cons_self p lits)
      have h' : '*' ∉ lits := fun e => h (List.mem_cons_of_mem p e)
      cases ks with
      | nil =>
          rw [List.cons_append, globMatch_lit_nil p _ hp]
          simp
      | cons k ks =>
          rw [List.cons_append, globMatch_lit_cons p k _ ks hp]
          simp only [Bool.and_eq_true, beq_iff_eq, ih h', List.cons_prefix_cons]

theorem globMatch_star_lits_star (lits : List Char) (h : '*' ∉ lits) (ks : List Char) :
    globMatch ('*' :: (lits ++ ['*'])) ks = true ↔ lits <:+: ks := by
  rw [globMatch_star]
  simp only [List.any_eq_true, List.mem_tails]
  constructor
  · rintro ⟨t, hsuf, hm⟩
    exact List.infix_iff_prefix_suffix.mpr ⟨t, (globMatch_lits_star lits h t).mp hm, hsuf⟩
  · intro hinf
    rcases List.infix_iff_prefix_suffix.mp hinf with ⟨t, hpre, hsuf⟩
    exact ⟨t, hsuf, (globMatch_lits_star lits h t).mpr hpre⟩

/-- A user id free of glob metacharacters (true of every uuid); under this
assumption the pattern `*:{u}*` means exactly "contains `:{u}` as a
substring". -/
def metaFree (u : String) : Bool :=
  u.data.all (fun c => c ≠ '*' ∧ c ≠ '?' ∧ c ≠ '[' ∧ c ≠ '\\')

theorem userCachePattern_data (u : String) :
    (userCachePattern u).data = '*' :: ((':' :: u.data) ++ ['*']) := by
  simp [userCachePattern, String.data_append]

theorem globMatch_userCachePattern (u : String) (hu : metaFree u = true) (k : String) :
    globMatch (userCachePattern u).data k.data = true ↔ (':' :: u.data) <:+: k.data := by
  rw [userCachePattern_data]
  apply globMatch_star_lits_star
  intro hmem
  rcases List.mem_cons.mp hmem with h1 | h2
  · exact absurd h1 (by decide)
  · have := (List.all_eq_true.mp hu) _ h2
    simp at this

theorem strIncludes_iff (hay needle : String) :
    strIncludes hay needle = true ↔ needle.data <:+: hay.data := by
  unfold strIncludes
  simp only [List.any_eq_true, List.mem_tails]
  constructor
  · rintro ⟨t, hsuf, hpre⟩
    exact List.infix_iff_prefix_suffix.mpr ⟨t, List.isPrefixOf_iff_prefix.mp hpre, hsuf⟩
  · intro hinf
    rcases List.infix_iff_prefix_suffix.mp hinf with ⟨t, hpre, hsuf⟩
    exact ⟨t, hsuf, List.isPrefixOf_iff_prefix.mpr hpre⟩

/-- The window length of every limiter: `"60 s"` in the `slidingWindow`
configurations of the rate-limit module, in milliseconds. -/
def windowMs : Nat := 60000

/-- The three limiter kinds configured in the rate-limit module. -/
inductive LimiterKind where
  | read
  | write
  | auth
deriving DecidableEq, Repr

/-- Configured caps: `readLimiter` 60, `writeLimiter` 20, `authLimiter` 10
requests per 60 seconds. -/
def limiterCap : LimiterKind → Nat
  | LimiterKind.read => 60
  | LimiterKind.write => 20
  | LimiterKind.auth => 10

/-- A success timestamp `t` counts toward the trailing window ending at
`now`: `t ≤ now < t + 60s`. -/
def inWindow (now t : Nat) : Bool :=
  t ≤ now && now < t + windowMs

/-- Number of successes of one key inside the trailing window ending at
`now`. The history list holds the timestamps of earlier successes. -/
def recentCount (hist : List Nat) (now : Nat) : Nat :=
  (hist.filter (inWindow now)).length

/-- Oldest success timestamp still inside the trailing window, if any. -/
def oldestIn (hist : List Nat) (now : Nat) : Option Nat :=
  (hist.filter (inWindow now)).foldr
    (fun t acc =>
      match acc with
      | none => some t
      | some m => some (if t ≤ m then t else m)) none

/-- The end of the current window: the instant at which the oldest counted
success leaves the trailing window. -/
def windowEnd (hist : List Nat) (now : Nat) : Nat :=
  match oldestIn hist now with
  | some m => m + windowMs
  | none => now + windowMs

/-- Reply of one `limiter.limit(identifier)` call. -/
structure LimitReply where
  success : Bool
  limit : Nat
  remaining : Nat
  reset : Nat
deriving DecidableEq, Repr

/-- Modelled from the spec: the sliding-window algorithm itself lives in the
external `@upstash/ratelimit` package, not in this repository; per the
spec, within any trailing 60-second interval ending now at most `cap`
requests for a key succeed, and a denied request reports the window end as
its reset instant. The per-key history of success timestamps stands for
the store state of that key. -/
def slidingWindowLimit (cap : Nat) (hist : List Nat) (now : Nat) :
    LimitReply × List Nat :=
  let c := recentCount hist now
  if c < cap then
    ({ success := true, limit := cap, remaining := cap - (c + 1),
       reset := windowEnd (now :: hist) now }, now :: hist)
  else
    ({ success := false, limit := cap, remaining := 0,
       reset := windowEnd hist now }, hist)

/-- `RateLimitResult` from the rate-limit module. -/
structure RateLimitResult where
  success : Bool
  limit : Nat
  remaining : Nat
  reset : Nat
  retryAfter : Option Nat
deriving DecidableEq, Repr

/-- `Math.ceil(d / 1000)` on a nonnegative integer `d`. -/
def ceilDiv1000 (d : Nat) : Nat := (d + 999) / 1000

/-- One line written to the console. -/
inductive ConsoleLevel where
  | log
  | warn
  | error
deriving DecidableEq, Repr

/-- Outcome of one `checkRateLimit` call: the result handed to the caller,
the store state afterwards, and the console lines emitted. -/
structure CheckOut where
  result : RateLimitResult
  hist : List Nat
  logs : List (ConsoleLevel × String)
deriving Repr

/-- `checkRateLimit(limiter, identifier)` from the rate-limit module: call
the limiter, translate its reply, computing
`retryAfter = Math.ceil((reset − now) / 1000)` when denied; when the store
call throws (`store = none`), catch, log `console.error`, and return the
default generous result `{success: true, limit: 60, remaining: 59,
reset: now + 60s}` so the request is allowed. -/
def checkRateLimit (cap : Nat) (store : Option (List Nat)) (now : Nat) : CheckOut :=
  match store with
  | some hist =>
      let r := slidingWindowLimit cap hist now
      { result := { success := r.1.success, limit := r.1.limit,
                    remaining := r.1.remaining, reset := r.1.reset,
                    retryAfter := if r.1.success then none
                                  else some (ceilDiv1000 (r.1.reset - now)) }
        hist := r.2
        logs := [] }
  | none =>
      { result := { success := true, limit := 60, remaining := 59,
                    reset := now + windowMs, retryAfter := none }
        hist := []
        logs := [(ConsoleLevel.error, "Rate limit check error:")] }

/-- Run a sequence of limiter calls at the given instants against one key,
threading the store state; yields the success flags and the final state. -/
def runChecks (cap : Nat) : List Nat → List Nat → List Bool × List Nat
  | hist, [] => ([], hist)
  | hist, t :: ts =>
      let r := slidingWindowLimit cap hist t
      let rest := runChecks cap r.2 ts
      (r.1.success :: rest.1, rest.2)

/-- The archival predicate of `/api/admin/archive-tasks`: status `done` and
`updated_at` strictly before the cutoff. -/
def sweepCandidate (cutoff : Nat) (t : TaskRow) : Bool :=
  t.status == Status.done && decide (t.updated_at < cutoff)

/-- The archival UPDATE of the POST handler: set `status = 'archived'` and
refresh `updated_at` on every row matching the predicate; the count is the
number of rows returned by `.select(...)`, i.e. the matched rows. -/
def archiveSweep (cutoff now : Nat) (db : List TaskRow) : List TaskRow × Nat :=
  (db.map (fun t =>
      if sweepCandidate cutoff t
      then { t with status := Status.archived, updated_at := now }
      else t),
   (db.filter (sweepCandidate cutoff)).length)

/-- Outcome of an archive-endpoint request: HTTP status, reported count,
database afterwards, and the number of database operations performed. -/
structure ArchiveOut where
  status : Nat
  archivedCount : Option Nat
  db : List TaskRow
  dbOps : Nat
deriving Repr

/-- POST `/api/admin/archive-tasks`: outside development mode
(`isDemo = false`), a request whose authorization header does not contain
`"Bearer"` is answered 401 before any database call; otherwise run the
sweep (a failing database call yields 500 and leaves the rows unchanged). -/
def archivePOST (isDemo : Bool) (authHeader : Option String) (cutoff now : Nat)
    (db : List TaskRow) (dbOk : Bool) : ArchiveOut :=
  if !isDemo && !(match authHeader with
                  | some h => strIncludes h "Bearer"
                  | none => false) then
    { status := 401, archivedCount := none, db := db, dbOps := 0 }
  else if !dbOk then
    { status := 500, archivedCount := none, db := db, dbOps := 1 }
  else
    let r := archiveSweep cutoff now db
    { status := 200, archivedCount := some r.2, db := r.1, dbOps := 1 }

/-- GET `/api/admin/archive-tasks`: the handler reads no request header at
all — it takes no credential input — and immediately performs the SELECT
of archivable rows, reporting their count. -/
def archiveGET (cutoff : Nat) (db : List TaskRow) (dbOk : Bool) : ArchiveOut :=
  if !dbOk then
    { status := 500, archivedCount := none, db := db, dbOps := 1 }
  else
    { status := 200,
      archivedCount := some (db.filter (sweepCandidate cutoff)).length,
      db := db, dbOps := 1 }

/-- A JSON response of a task route handler. -/
structure Resp where
  status : Nat
  data : Option TaskRow
  details : List String
  message : Option String
deriving DecidableEq, Repr

/-- The externally visible events a handler performs, in order. -/
inductive Ev where
  | dbRead (ok : Bool)
  | dbWrite (ok : Bool) (modified : Bool)
  | cacheSet (key : String)
  | cacheInval (pat : String)
  | respond (status : Nat)
deriving DecidableEq, Repr

/-- Per-request context: the identity resolved from the session (`none` when
`supabase.auth.getUser()` fails), the rate-limit decision, whether the
database call succeeds, and the current instant. -/
structure Ctx where
  user : Option String
  rateOk : Bool
  dbOk : Bool
  now : Nat

/-- Outcome of one handler run: response, database afterwards, events. -/
structure HandlerOut where
  resp : Resp
  db : List TaskRow
  events : List Ev
deriving Repr

/-- The cache as the single-task handlers see it: key to cached task. -/
abbrev TaskCache : Type := List (String × TaskRow)

/-- `CacheService.get` on the task cache. -/
def cacheGet (c : TaskCache) (k : String) : Option TaskRow :=
  (c.find? (fun p => p.1 == k)).map (fun p => p.2)

/-- `.select('*').eq('id', id).single()` under row-level security: only rows
owned by the caller are visible; `.single()` reports `PGRST116` unless
exactly one row results. -/
def rlsSelectSingle (db : List TaskRow) (u id : String) : Option TaskRow :=
  match db.filter (fun t => t.id == id && t.user_id == u) with
  | [t] => some t
  | _ => none

/-- Apply a validated `TaskUpdateSchema` payload to a row (only provided
fields change; `updated_at` is refreshed by the database trigger). -/
def applyUpdate (upd : TaskUpdateData) (now : Nat) (t : TaskRow) : TaskRow :=
  { t with
    title := upd.title.getD t.title
    description := match upd.description with
                   | some d => some d
                   | none => t.description
    status := upd.status.getD t.status
    due_date := match upd.due_date with
                | some d => some d
                | none => t.due_date
    updated_at := now }

/-- GET `/api/tasks/[id]`: auth check, read-rate-limit check, cache lookup
under `task:{userId}:{id}`, owner-scoped single select (`PGRST116` → 404),
cache population on a fresh read. -/
def getTaskById (ctx : Ctx) (id : String) (cache : TaskCache) (db : List TaskRow) :
    HandlerOut :=
  match ctx.user with
  | none =>
      { resp := { status := 401, data := none, details := [], message := none },
        db := db, events := [Ev.respond 401] }
  | some u =>
      if !ctx.rateOk then
        { resp := { status := 429, data := none, details := [], message := none },
          db := db, events := [Ev.respond 429] }
      else
        match cacheGet cache (getUserTaskKey u id) with
        | some t =>
            { resp := { status := 200, data := some t, details := [], message := none },
              db := db, events := [Ev.respond 200] }
        | none =>
            if !ctx.dbOk then
              { resp := { status := 500, data := none, details := [], message := none },
                db := db, events := [Ev.dbRead false, Ev.respond 500] }
            else
              match rlsSelectSingle db u id with
              | none =>
                  { resp := { status := 404, data := none, details := [], message := none },
                    db := db, events := [Ev.dbRead true, Ev.respond 404] }
              | some t =>
                  { resp := { status := 200, data := some t, details := [], message := none },
                    db := db,
                    events := [Ev.dbRead true, Ev.cacheSet (getUserTaskKey u id),
                               Ev.respond 200] }

/-- PUT `/api/tasks/[id]`: auth, write-rate-limit, `TaskUpdateSchema`
validation, owner-scoped `.update(...).eq('id', id).select().single()`
(`PGRST116` → 404), then `invalidateUserCache` and 200. -/
def putTaskById (ctx : Ctx) (id : String) (body : Body) (db : List TaskRow) :
    HandlerOut :=
  match ctx.user with
  | none =>
      { resp := { status := 401, data := none, details := [], message := none },
        db := db, events := [Ev.respond 401] }
  | some u =>
      if !ctx.rateOk then
        { resp := { status := 429, data := none, details := [], message := none },
          db := db, events := [Ev.respond 429] }
      else
        match taskUpdateSafeParse body with
        | Except.error issues =>
            { resp := { status := 400, data := none, details := issues, message := none },
              db := db, events := [Ev.respond 400] }
        | Except.ok upd =>
            if !ctx.dbOk then
              { resp := { status := 500, data := none, details := [], message := none },
                db := db, events := [Ev.dbWrite false false, Ev.respond 500] }
            else
              let db2 := db.map (fun x =>
                if x.id == id && x.user_id == u then applyUpdate upd ctx.now x else x)
              match db.filter (fun t => t.id == id && t.user_id == u) with
              | [t] =>
                  { resp := { status := 200, data := some (applyUpdate upd ctx.now t),
                              details := [], message := none },
                    db := db2,
                    events := [Ev.dbWrite true true, Ev.cacheInval (userCachePattern u),
                               Ev.respond 200] }
              | [] =>
                  { resp := { status := 404, data := none, details := [], message := none },
                    db := db2, events := [Ev.dbWrite true false, Ev.respond 404] }
              | _ =>
                  { resp := { status := 404, data := none, details := [], message := none },
                    db := db2, events := [Ev.dbWrite true true, Ev.respond 404] }

/-- DELETE `/api/tasks/[id]`: auth, write-rate-limit, owner-scoped
`.delete().eq('id', id)` — no `.single()`, so a vanished match is not an
error — then `invalidateUserCache` and 200 with a success message. -/
def deleteTaskById (ctx : Ctx) (id : String) (db : List TaskRow) : HandlerOut :=
  match ctx.user with
  | none =>
      { resp := { status := 401, data := none, details := [], message := none },
        db := db, events := [Ev.respond 401] }
  | some u =>
      if !ctx.rateOk then
        { resp := { status := 429, data := none, details := [], message := none },
          db := db, events := [Ev.respond 429] }
      else if !ctx.dbOk then
        { resp := { status := 500, data := none, details := [], message := none },
          db := db, events := [Ev.dbWrite false false, Ev.respond 500] }
      else
        { resp := { status := 200, data := none, details := [],
                    message := some "Task deleted successfully" },
          db := db.filter (fun t => !(t.id == id && t.user_id == u)),
          events := [Ev.dbWrite true (db.any (fun t => t.id == id && t.user_id == u)),
                     Ev.cacheInval (userCachePattern u), Ev.respond 200] }

/-- POST `/api/tasks`: auth, write-rate-limit, `TaskCreateSchema`
validation, insert of `{...validated, user_id: user.id}`, then
`invalidateUserCache` and 201. -/
def postTasks (ctx : Ctx) (body : Body) (newId : String) (db : List TaskRow) :
    HandlerOut :=
  match ctx.user with
  | none =>
      { resp := { status := 401, data := none, details := [], message := none },
        db := db, events := [Ev.respond 401] }
  | some u =>
      if !ctx.rateOk then
        { resp := { status := 429, data := none, details := [], message := none },
          db := db, events := [Ev.respond 429] }
      else
        match taskCreateSafeParse body with
        | Except.error issues =>
            { resp := { status := 400, data := none, details := issues, message := none },
              db := db, events := [Ev.respond 400] }
        | Except.ok d =>
            let t : TaskRow :=
              { id := newId, user_id := u, title := d.title,
                description := d.description, status := d.status,
                due_date := d.due_date, created_at := ctx.now,
                updated_at := ctx.now }
            if !ctx.dbOk then
              { resp := { status := 500, data := none, details := [], message := none },
                db := db, events := [Ev.dbWrite false false, Ev.respond 500] }
            else
              { resp := { status := 201, data := some t, details := [], message := none },
                db := db ++ [t],
                events := [Ev.dbWrite true true, Ev.cacheInval (userCachePattern u),
                           Ev.respond 201] }

theorem colon_u_infix_tasksKey (u : String) :
    (':' :: u.data) <:+: (getUserTasksKey u).data := by
  refine ⟨['t', 'a', 's', 'k', 's'], [], ?_⟩
  simp [getUserTasksKey, String.data_append]

theorem colon_u_infix_taskKey (u tid : String) :
    (':' :: u.data) <:+: (getUserTaskKey u tid).data := by
  refine ⟨['t', 'a', 's', 'k'], ':' :: tid.data, ?_⟩
  simp [getUserTaskKey, String.data_append]

/-- C10: `invalidateUserCache` deletes from the backing store exactly the
keys matching the glob `*:{ownerId}*`, i.e. (for a metacharacter-free
owner id) exactly the keys containing `:{ownerId}` as a substring — a
superset of the owner's own entries `tasks:{ownerId}` and every
`task:{ownerId}:{taskId}`, since any key of any other owner or subsystem
containing `:` followed by the owner id is deleted too. -/
theorem claim_C10_invalidateUserCache (u : String) (hu : metaFree u = true)
    (store : CacheStore) :
    (∀ k v, (k, v) ∈ invalidateUserCache u store ↔
        ((k, v) ∈ store ∧ ¬ (':' :: u.data) <:+: k.data))
    ∧ (∀ v, (getUserTasksKey u, v) ∉ invalidateUserCache u store)
    ∧ (∀ tid v, (getUserTaskKey u tid, v) ∉ invalidateUserCache u store)
    ∧ (∀ k v, (k, v) ∈ store → (':' :: u.data) <:+: k.data →
        (k, v) ∉ invalidateUserCache u store) := by
  have hmem : ∀ k v, (k, v) ∈ invalidateUserCache u store ↔
      ((k, v) ∈ store ∧ ¬ (':' :: u.data) <:+: k.data) := by
    intro k v
    unfold invalidateUserCache invalidatePattern
    rw [List.mem_filter]
    constructor
    · rintro ⟨hin, hp⟩
      refine ⟨hin, fun hinf => ?_⟩
      have hgm := (globMatch_userCachePattern u hu k).mpr hinf
      have hp' : globMatch (userCachePattern u).data k.data = false := by
        simpa using hp
      rw [hgm] at hp'
      exact Bool.noConfusion hp'
    · rintro ⟨hin, hninf⟩
      refine ⟨hin, ?_⟩
      have hf : globMatch (userCachePattern u).data k.data = false := by
        rw [Bool.eq_false_iff]
        intro hgm
        exact hninf ((globMatch_userCachePattern u hu k).mp hgm)
      simpa using hf
  refine ⟨hmem, ?_, ?_, ?_⟩
  · intro v hv
    exact ((hmem _ v).mp hv).2 (colon_u_infix_tasksKey u)
  · intro tid v hv
    exact ((hmem _ v).mp hv).2 (colon_u_infix_taskKey u tid)
  · intro k v _ hinf hv
    exact ((hmem k v).mp hv).2 hinf

/-- C10 witness at a concrete owner id. -/
theorem claim_C10_witness :
    metaFree "u1" = true
    ∧ ("tasks:u1", "x") ∉ invalidateUserCache "u1" [("tasks:u1", "x")] :=
  ⟨by decide, by
    have h := (claim_C10_invalidateUserCache "u1" (by decide)
      [("tasks:u1", "x")]).2.1 "x"
    simpa [getUserTasksKey] using h⟩

/-- C8: `getCORSHeaders` — for `Origin: null` echo `null` with credentials;
for an allow-listed origin echo that exact origin with credentials; for
any other or absent origin emit no allow-origin header; and always include
the allowed-methods, allowed-request-headers and 86400-second max-age
headers. -/
theorem claim_C8_corsHeaders (allowed : List String) (origin : Option String) :
    (origin = some "null" →
      headerVal (getCORSHeaders allowed origin) "Access-Control-Allow-Origin" = some "null"
      ∧ headerVal (getCORSHeaders allowed origin) "Access-Control-Allow-Credentials"
          = some "true")
    ∧ (∀ o, origin = some o → o ≠ "null" → o ∈ allowed →
      headerVal (getCORSHeaders allowed origin) "Access-Control-Allow-Origin" = some o
      ∧ headerVal (getCORSHeaders allowed origin) "Access-Control-Allow-Credentials"
          = some "true")
    ∧ (∀ o, origin = some o → o ≠ "null" → o ∉ allowed →
      headerVal (getCORSHeaders allowed origin) "Access-Control-Allow-Origin" = none)
    ∧ (origin = none →
      headerVal (getCORSHeaders allowed origin) "Access-Control-Allow-Origin" = none)
    ∧ headerVal (getCORSHeaders allowed origin) "Access-Control-Allow-Methods"
        = some "GET, POST, PUT, DELETE, OPTIONS"
    ∧ headerVal (getCORSHeaders allowed origin) "Access-Control-Allow-Headers"
        = some "Content-Type, Authorization, X-Requested-With"
    ∧ headerVal (getCORSHeaders allowed origin) "Access-Control-Max-Age" = some "86400" := by
  refine ⟨?_, ?_, ?_, ?_, ?_, ?_, ?_⟩
  · rintro rfl
    constructor <;> simp [getCORSHeaders, headerVal, List.find?]
  · rintro o rfl hne hmem
    constructor <;> simp [getCORSHeaders, headerVal, List.find?, hne, hmem]
  · rintro o rfl hne hmem
    simp [getCORSHeaders, headerVal, List.find?, hne, hmem]
  · rintro rfl
    simp [getCORSHeaders, headerVal, List.find?]
  · rcases origin with _ | o
    · simp [getCORSHeaders, headerVal, List.find?]
    · by_cases ho : o = "null" <;> by_cases hm : o ∈ allowed <;>
        simp [getCORSHeaders, headerVal, List.find?, ho, hm]
  · rcases origin with _ | o
    · simp [getCORSHeaders, headerVal, List.find?]
    · by_cases ho : o = "null" <;> by_cases hm : o ∈ allowed <;>
        simp [getCORSHeaders, headerVal, List.find?, ho, hm]
  · rcases origin with _ | o
    · simp [getCORSHeaders, headerVal, List.find?]
    · by_cases ho : o = "null" <;> by_cases hm : o ∈ allowed <;>
        simp [getCORSHeaders, headerVal, List.find?, ho, hm]

/-- C8 witness: the default allow-list with its own origin, and the
literal-null origin. -/
theorem claim_C8_witness :
    headerVal (getCORSHeaders defaultAllowedOrigins (some "http://localhost:3000"))
        "Access-Control-Allow-Origin" = some "http://localhost:3000"
    ∧ headerVal (getCORSHeaders defaultAllowedOrigins (some "null"))
        "Access-Control-Allow-Origin" = some "null"
    ∧ headerVal (getCORSHeaders defaultAllowedOrigins (some "https://evil.example"))
        "Access-Control-Allow-Origin" = none :=
  ⟨((claim_C8_corsHeaders defaultAllowedOrigins (some "http://localhost:3000")).2.1
      "http://localhost:3000" rfl (by decide) (by decide)).1,
   ((claim_C8_corsHeaders defaultAllowedOrigins (some "null")).1 rfl).1,
   (claim_C8_corsHeaders defaultAllowedOrigins (some "https://evil.example")).2.2.1
      "https://evil.example" rfl (by decide) (by decide)⟩

/-- C9 counterexample: when the backing store call throws, `checkRateLimit`
does fail open with `success = true`, but the failure is written with
`console.error` — an error-level line, not a warning: the log list carries
no warn-level entry, refuting "the failure is logged as a warning". -/
theorem claim_C9_counterexample :
    (checkRateLimit 60 none 0).result.success = true
    ∧ (checkRateLimit 60 none 0).logs = [(ConsoleLevel.error, "Rate limit check error:")]
    ∧ (checkRateLimit 60 none 0).logs.filter (fun p => p.1 == ConsoleLevel.warn) = [] :=
  ⟨rfl, rfl, rfl⟩

/-- C9 amended: for every rate-limit check in which the backing store call
raises an error, the check returns the default generous result with
`success = true` (limit 60, remaining 59, reset one window ahead, no
retry-after) so the request is allowed, the failure is logged — at error
level via `console.error`, not as a warning — and no error is propagated
to the caller (the embedded `checkRateLimit` is a total function into
`CheckOut`, mirroring the `try/catch` that swallows the exception). -/
theorem claim_C9_failOpen (cap now : Nat) :
    (checkRateLimit cap none now).result
      = { success := true, limit := 60, remaining := 59,
          reset := now + windowMs, retryAfter := none }
    ∧ (checkRateLimit cap none now).logs
      = [(ConsoleLevel.error, "Rate limit check error:")]
    ∧ (checkRateLimit cap none now).logs.filter (fun p => p.1 == ConsoleLevel.warn) = [] :=
  ⟨rfl, rfl, rfl⟩

/-- C5: the sweep archives exactly the rows with status `done` and
`updated_at` before the cutoff — each such row reappears with status
`archived` and a refreshed `updated_at`, every other row is unchanged, and
nothing else is in the result — and it is idempotent: a second sweep with
the same cutoff finds zero candidates, and a second POST of the endpoint
reports `archived_count = 0`. -/
theorem claim_C5_archiveSweep (cutoff now now2 : Nat) (db : List TaskRow) :
    (∀ t ∈ db, sweepCandidate cutoff t = true →
        ({ t with status := Status.archived, updated_at := now } : TaskRow)
          ∈ (archiveSweep cutoff now db).1)
    ∧ (∀ t ∈ db, sweepCandidate cutoff t = false → t ∈ (archiveSweep cutoff now db).1)
    ∧ (∀ t' ∈ (archiveSweep cutoff now db).1,
        (t' ∈ db ∧ sweepCandidate cutoff t' = false)
        ∨ (∃ t ∈ db, sweepCandidate cutoff t = true
            ∧ t' = { t with status := Status.archived, updated_at := now }))
    ∧ (archiveSweep cutoff now db).2 = (db.filter (sweepCandidate cutoff)).length
    ∧ (archiveSweep cutoff now2 (archiveSweep cutoff now db).1).2 = 0
    ∧ (archivePOST true none cutoff now2
        (archivePOST true none cutoff now db true).db true).archivedCount = some 0 := by
  have hnocand : ∀ t' ∈ (archiveSweep cutoff now db).1, sweepCandidate cutoff t' = false := by
    intro t' ht'
    rcases List.mem_map.mp ht' with ⟨t, _, rfl⟩
    by_cases hc : sweepCandidate cutoff t = true
    · simp only [hc, if_true]
      simp [sweepCandidate]
    · rw [Bool.not_eq_true] at hc
      simp [hc]
  have hsnd : ∀ m : Nat, (archiveSweep cutoff m (archiveSweep cutoff now db).1).2 = 0 := by
    intro m
    unfold archiveSweep
    simp only
    rw [List.length_eq_zero, List.filter_eq_nil_iff]
    intro t' ht'
    rw [hnocand t' ht']
    exact Bool.noConfusion
  refine ⟨?_, ?_, ?_, rfl, hsnd now2, ?_⟩
  · intro t ht hc
    exact List.mem_map.mpr ⟨t, ht, by simp [hc]⟩
  · intro t ht hc
    refine List.mem_map.mpr ⟨t, ht, ?_⟩
    simp [hc]
  · intro t' ht'
    rcases List.mem_map.mp ht' with ⟨t, ht, rfl⟩
    by_cases hc : sweepCandidate cutoff t = true
    · exact Or.inr ⟨t, ht, hc, by simp [hc]⟩
    · rw [Bool.not_eq_true] at hc
      refine Or.inl ⟨by simp [hc]; exact ht, by simp [hc]⟩
  · show (archivePOST true none cutoff now2 (archiveSweep cutoff now db).1 true).archivedCount
      = some 0
    unfold archivePOST
    simp [hsnd now2, archiveSweep]
    have := hsnd now2
    unfold archiveSweep at this
    simpa using this

/-- C5 witness at a concrete database: one archivable row, one fresh row. -/
theorem claim_C5_witness :
    ({ id := "t1", user_id := "A", title := "x", description := none,
       status := Status.archived, due_date := none, created_at := 0,
       updated_at := 50 } : TaskRow)
      ∈ (archiveSweep 100 50
          [{ id := "t1", user_id := "A", title := "x", description := none,
             status := Status.done, due_date := none, created_at := 0,
             updated_at := 10 }]).1
    ∧ (archiveSweep 100 60 (archiveSweep 100 50
        [{ id := "t1", user_id := "A", title := "x", description := none,
           status := Status.done, due_date := none, created_at := 0,
           updated_at := 10 }]).1).2 = 0 :=
  ⟨(claim_C5_archiveSweep 100 50 60
      [{ id := "t1", user_id := "A", title := "x", description := none,
         status := Status.done, due_date := none, created_at := 0,
         updated_at := 10 }]).1
    { id := "t1", user_id := "A", title := "x", description := none,
      status := Status.done, due_date := none, created_at := 0,
      updated_at := 10 } (by decide) (by decide),
   (claim_C5_archiveSweep 100 50 60
      [{ id := "t1", user_id := "A", title := "x", description := none,
         status := Status.done, due_date := none, created_at := 0,
         updated_at := 10 }]).2.2.2.2.1⟩

/-- A concrete archivable row used in closed statements. -/
def sampleDoneTask : TaskRow :=
  { id := "t1", user_id := "B", title := "old", description := none,
    status := Status.done, due_date := none, created_at := 0, updated_at := 10 }

/-- C6 counterexample: the GET handler of `/api/admin/archive-tasks` reads
no authorization header at all (the embedded `archiveGET` takes no
credential input because the source never consults one): a credential-less
GET outside development mode is answered 200 after performing the SELECT,
not 401 with no database operation — refuting the claim for GET. -/
theorem claim_C6_counterexample :
    (archiveGET 100 [sampleDoneTask] true).status = 200
    ∧ (archiveGET 100 [sampleDoneTask] true).status ≠ 401
    ∧ (archiveGET 100 [sampleDoneTask] true).dbOps = 1 :=
  ⟨rfl, by decide, rfl⟩

/-- C6 amended: only the POST handler enforces the credential — outside
development mode a POST whose authorization header does not contain
`"Bearer"` receives 401, reports no count, performs no database operation
and leaves the rows unchanged; the GET handler performs its SELECT without
any credential check. -/
theorem claim_C6_archiveAuth (auth : Option String) (cutoff now : Nat)
    (db : List TaskRow) (dbOk : Bool)
    (hno : (match auth with
            | some h => strIncludes h "Bearer"
            | none => false) = false) :
    archivePOST false auth cutoff now db dbOk
      = { status := 401, archivedCount := none, db := db, dbOps := 0 }
    ∧ (archiveGET cutoff db true).status = 200
    ∧ (archiveGET cutoff db true).dbOps = 1 := by
  refine ⟨?_, rfl, rfl⟩
  unfold archivePOST
  simp [hno]

/-- C6 witness: a POST with no authorization header at all. -/
theorem claim_C6_witness :
    archivePOST false none 100 200 [sampleDoneTask] true
      = { status := 401, archivedCount := none, db := [sampleDoneTask], dbOps := 0 } :=
  (claim_C6_archiveAuth none 100 200 [sampleDoneTask] true rfl).1

theorem taskCreateSafeParse_error (b : Body) (h : taskCreateIssues b ≠ []) :
    taskCreateSafeParse b = Except.error (taskCreateIssues b) := by
  rcases hE : taskCreateIssues b with _ | ⟨x, xs⟩
  · exact absurd hE h
  · simp [taskCreateSafeParse, hE]

theorem taskCreateIssues_unknown_field (b : Body) (k : String) (v : JVal)
    (hmem : (k, v) ∈ b) (hk : knownTaskFields.contains k = false) :
    taskCreateIssues b ≠ [] := by
  intro hE
  have hsplit : strictIssues b = [] ∧ titleIssues b = [] ∧ descriptionIssues b = []
      ∧ statusIssues b = [] ∧ dueDateIssues b = [] := by
    simpa [taskCreateIssues] using hE
  have h1 := hsplit.1
  by_cases hall : b.all (fun p => knownTaskFields.contains p.1) = true
  · have hkv := List.all_eq_true.mp hall (k, v) hmem
    simp only at hkv
    rw [hk] at hkv
    exact Bool.noConfusion hkv
  · rw [Bool.not_eq_true] at hall
    unfold strictIssues at h1
    rw [hall] at h1
    simp at h1

/-- C7 counterexample: a body consisting of only a valid title does not pass
validation — `TaskCreateSchema` has no `.optional()` on `status`, so
`{"title": "Buy milk"}` is rejected with a status-required issue and the
POST handler answers 400 — refuting "every field other than title is
optional". -/
theorem claim_C7_counterexample :
    taskCreateSafeParse [("title", JVal.str "Buy milk")]
      = Except.error ["status: Required"]
    ∧ (postTasks { user := some "A", rateOk := true, dbOk := true, now := 0 }
        [("title", JVal.str "Buy milk")] "t1" []).resp.status = 400 :=
  ⟨rfl, rfl⟩

/-- C7 amended: a zero-length title is rejected with 400 and field-level
details, a 120-character title is accepted and a 121-character one
rejected (given an otherwise valid body), any body containing an unknown
extra field is rejected — but `status` is required alongside `title`
(only `description` and `due_date` are optional): a body consisting of
only a valid title fails with a status-required issue. -/
theorem claim_C7_validation (s st : String) (ss : Status)
    (hst : parseStatus st = some ss) (u nid : String) (dbOk : Bool) (n : Nat)
    (db : List TaskRow) :
    (s.length = 0 →
      taskCreateIssues [("title", JVal.str s), ("status", JVal.str st)] ≠ []
      ∧ (postTasks { user := some u, rateOk := true, dbOk := dbOk, now := n }
          [("title", JVal.str s), ("status", JVal.str st)] nid db).resp.status = 400
      ∧ (postTasks { user := some u, rateOk := true, dbOk := dbOk, now := n }
          [("title", JVal.str s), ("status", JVal.str st)] nid db).resp.details ≠ [])
    ∧ (1 ≤ s.length → s.length ≤ 120 →
      taskCreateSafeParse [("title", JVal.str s), ("status", JVal.str st)]
        = Except.ok { title := s, description := none, status := ss, due_date := none })
    ∧ (120 < s.length →
      taskCreateIssues [("title", JVal.str s), ("status", JVal.str st)] ≠ [])
    ∧ (∀ b : Body, ∀ k v, (k, v) ∈ b → knownTaskFields.contains k = false →
      taskCreateIssues b ≠ [])
    ∧ (1 ≤ s.length → s.length ≤ 120 →
      taskCreateSafeParse [("title", JVal.str s)]
        = Except.error ["status: Required"]) := by
  refine ⟨?_, ?_, ?_, ?_, ?_⟩
  · intro h0
    have hiss : taskCreateIssues [("title", JVal.str s), ("status", JVal.str st)]
        = ["title: Title is required"] := by
      simp [taskCreateIssues, strictIssues, titleIssues, descriptionIssues,
        statusIssues, dueDateIssues, fieldVal, List.find?, knownTaskFields, hst, h0]
    refine ⟨by rw [hiss]; exact (by decide), ?_, ?_⟩
    · simp [postTasks, taskCreateSafeParse_error _ (by rw [hiss]; exact (by decide)), hiss]
    · simp [postTasks, taskCreateSafeParse_error _ (by rw [hiss]; exact (by decide)), hiss]
  · intro h1 h2
    have hn1 : ¬ (s.length < 1) := by omega
    have hn2 : ¬ (120 < s.length) := by omega
    have hiss : taskCreateIssues [("title", JVal.str s), ("status", JVal.str st)] = [] := by
      simp [taskCreateIssues, strictIssues, titleIssues, descriptionIssues,
        statusIssues, dueDateIssues, fieldVal, List.find?, knownTaskFields, hst, hn1, hn2]
    simp [taskCreateSafeParse, hiss, taskCreateExtract, fieldVal, List.find?, hst]
  · intro h121
    have hn1 : ¬ (s.length < 1) := by omega
    have hiss : taskCreateIssues [("title", JVal.str s), ("status", JVal.str st)]
        = ["title: Title must be less than 120 characters"] := by
      simp [taskCreateIssues, strictIssues, titleIssues, descriptionIssues,
        statusIssues, dueDateIssues, fieldVal, List.find?, knownTaskFields, hst, hn1, h121]
    rw [hiss]
    exact (by decide)
  · exact fun b k v hmem hk => taskCreateIssues_unknown_field b k v hmem hk
  · intro h1 h2
    have hn1 : ¬ (s.length < 1) := by omega
    have hn2 : ¬ (120 < s.length) := by omega
    have hiss : taskCreateIssues [("title", JVal.str s)] = ["status: Required"] := by
      simp [taskCreateIssues, strictIssues, titleIssues, descriptionIssues,
        statusIssues, dueDateIssues, fieldVal, List.find?, knownTaskFields, hn1, hn2]
    rw [taskCreateSafeParse_error _ (by rw [hiss]; exact (by decide)), hiss]

/-- C7 witness: a 120-character title with a valid status is accepted; the
121-character variant is rejected. -/
theorem claim_C7_witness :
    taskCreateSafeParse [("title", JVal.str (String.mk (List.replicate 120 'a'))),
                         ("status", JVal.str "todo")]
      = Except.ok { title := String.mk (List.replicate 120 'a'), description := none,
                    status := Status.todo, due_date := none }
    ∧ taskCreateIssues [("title", JVal.str (String.mk (List.replicate 121 'a'))),
                        ("status", JVal.str "todo")] ≠ [] :=
  ⟨(claim_C7_validation (String.mk (List.replicate 120 'a')) "todo" Status.todo rfl
      "A" "t1" true 0 []).2.1 (by decide) (by decide),
   (claim_C7_validation (String.mk (List.replicate 121 'a')) "todo" Status.todo rfl
      "A" "t1" true 0 []).2.2.1 (by decide)⟩

/-- C3: the owner stored with every task the POST handler inserts equals the
identity resolved from the session, regardless of the request body: any
row in the database after the request that was not there before carries
`user_id = u`. A body supplying its own `user_id` field is rejected by the
`.strict()` schema (unknown field) with 400, leaving the database
untouched, so it can never set the owner. -/
theorem claim_C3_ownerFromSession (ctx : Ctx) (u : String) (hu : ctx.user = some u)
    (body : Body) (nid : String) (db : List TaskRow) :
    (∀ t ∈ (postTasks ctx body nid db).db, t ∉ db → t.user_id = u)
    ∧ (ctx.rateOk = true → hasField body "user_id" = true →
        (postTasks ctx body nid db).resp.status = 400
        ∧ (postTasks ctx body nid db).db = db) := by
  constructor
  · intro t ht hnotin
    unfold postTasks at ht
    rw [hu] at ht
    by_cases hr : ctx.rateOk = true
    · simp only [hr, Bool.not_true, Bool.false_eq_true, if_false] at ht
      cases hp : taskCreateSafeParse body with
      | error is =>
          rw [hp] at ht
          simp at ht
          exact absurd ht hnotin
      | ok d =>
          rw [hp] at ht
          by_cases hdb : ctx.dbOk = true
          · simp only [hdb, Bool.not_true, Bool.false_eq_true, if_false] at ht
            simp at ht
            rcases ht with h | h
            · exact absurd h hnotin
            · rw [h]
          · rw [Bool.not_eq_true] at hdb
            simp only [hdb, Bool.not_false, if_true] at ht
            exact absurd ht hnotin
    · rw [Bool.not_eq_true] at hr
      simp only [hr, Bool.not_false, if_true] at ht
      exact absurd ht hnotin
  · intro hr hf
    rcases List.any_eq_true.mp hf with ⟨⟨k, v⟩, hmem, hk⟩
    have hk' : k = "user_id" := by simpa using hk
    subst hk'
    have hne := taskCreateIssues_unknown_field body "user_id" v hmem (by decide)
    have hperr := taskCreateSafeParse_error body hne
    constructor <;>
      · unfold postTasks
        rw [hu, hperr]
        simp [hr]

/-- C3 witness: a body that tries to smuggle `user_id: "B"` is rejected, and
a valid body inserts a row owned by the session identity. -/
theorem claim_C3_witness :
    (postTasks { user := some "A", rateOk := true, dbOk := true, now := 5 }
        [("title", JVal.str "x"), ("status", JVal.str "todo"),
         ("user_id", JVal.str "B")] "t9" []).resp.status = 400
    ∧ ∀ t ∈ (postTasks { user := some "A", rateOk := true, dbOk := true, now := 5 }
        [("title", JVal.str "x"), ("status", JVal.str "todo")] "t9" []).db,
        t ∉ ([] : List TaskRow) → t.user_id = "A" :=
  ⟨((claim_C3_ownerFromSession
      { user := some "A", rateOk := true, dbOk := true, now := 5 } "A" rfl
      [("title", JVal.str "x"), ("status", JVal.str "todo"),
       ("user_id", JVal.str "B")] "t9" []).2 rfl rfl).1,
   (claim_C3_ownerFromSession
      { user := some "A", rateOk := true, dbOk := true, now := 5 } "A" rfl
      [("title", JVal.str "x"), ("status", JVal.str "todo")] "t9" []).1⟩

/-- A concrete task owned by identity `B`, targeted by identity `A` in
closed statements. -/
def taskOfB : TaskRow :=
  { id := "tb", user_id := "B", title := "b", description := none,
    status := Status.todo, due_date := none, created_at := 0, updated_at := 0 }

/-- C1 counterexample: DELETE `/api/tasks/[id]` by identity `A` against a
task owned by `B` responds 200 with the success message — not 404 — because
the handler issues `.delete().eq('id', id)` without `.single()`, so a
row-level-security miss is not an error. (The task itself is untouched.) -/
theorem claim_C1_counterexample :
    (deleteTaskById { user := some "A", rateOk := true, dbOk := true, now := 1 } "tb"
        [taskOfB]).resp.status = 200
    ∧ (deleteTaskById { user := some "A", rateOk := true, dbOk := true, now := 1 } "tb"
        [taskOfB]).resp.message = some "Task deleted successfully"
    ∧ (deleteTaskById { user := some "A", rateOk := true, dbOk := true, now := 1 } "tb"
        [taskOfB]).db = [taskOfB] :=
  ⟨rfl, rfl, by decide⟩

/-- C1 amended: for an authenticated identity `u` and a task id that does
not exist or is owned by a different identity (no row with that id is
owned by `u`): GET answers 404 carrying no task data, PUT (with a body
that passes validation) answers 404, and DELETE answers 200 with the
success message — and in every case the database is unchanged, so no
foreign task is read, modified or deleted. (GET is taken at a cache miss;
the per-user cache key `task:{u}:{id}` is never populated with foreign
rows.) -/
theorem claim_C1_isolation (u id : String) (db : List TaskRow) (cache : TaskCache)
    (ctx : Ctx) (hu : ctx.user = some u) (hr : ctx.rateOk = true)
    (hdb : ctx.dbOk = true)
    (hno : ∀ t ∈ db, t.id = id → t.user_id ≠ u)
    (hc : cacheGet cache (getUserTaskKey u id) = none)
    (body : Body) :
    ((getTaskById ctx id cache db).resp.status = 404
      ∧ (getTaskById ctx id cache db).resp.data = none
      ∧ (getTaskById ctx id cache db).db = db)
    ∧ (∀ upd, taskUpdateSafeParse body = Except.ok upd →
        (putTaskById ctx id body db).resp.status = 404
        ∧ (putTaskById ctx id body db).resp.data = none
        ∧ (putTaskById ctx id body db).db = db)
    ∧ ((deleteTaskById ctx id db).resp.status = 200
        ∧ (deleteTaskById ctx id db).db = db) := by
  have hcond : ∀ t ∈ db, (t.id == id && t.user_id == u) = false := by
    intro t ht
    by_cases h1 : t.id = id
    · have h2 : t.user_id ≠ u := hno t ht h1
      simp [h1, h2]
    · simp [h1]
  have hfil : db.filter (fun t => t.id == id && t.user_id == u) = [] :=
    List.filter_eq_nil_iff.mpr (fun t ht => by simp [hcond t ht])
  have hsel : rlsSelectSingle db u id = none := by
    unfold rlsSelectSingle
    rw [hfil]
  refine ⟨?_, ?_, ?_⟩
  · unfold getTaskById
    rw [hu]
    simp [hr, hc, hdb, hsel]
  · intro upd hupd
    unfold putTaskById
    rw [hu]
    simp [hr, hupd, hdb, hfil]
    have hcg : ∀ x ∈ db,
        (if x.id = id ∧ x.user_id = u then applyUpdate upd ctx.now x else x) = x := by
      intro x hx
      have hnc : ¬ (x.id = id ∧ x.user_id = u) := by
        simpa using hcond x hx
      rw [if_neg hnc]
    calc db.map (fun x => if x.id = id ∧ x.user_id = u
            then applyUpdate upd ctx.now x else x)
        = db.map (fun x => x) := List.map_congr_left hcg
      _ = db := List.map_id' db
  · unfold deleteTaskById
    rw [hu]
    simp [hr, hdb]
    intro a ha
    by_cases h1 : a.id = id
    · exact Or.inr (hno a ha h1)
    · exact Or.inl h1

/-- C1 witness: identity `A` against the concrete database holding only a
task of `B`, with an empty cache and the empty (valid) update body. -/
theorem claim_C1_witness :
    ((getTaskById { user := some "A", rateOk := true, dbOk := true, now := 1 } "tb"
        [] [taskOfB]).resp.status = 404)
    ∧ ((putTaskById { user := some "A", rateOk := true, dbOk := true, now := 1 } "tb"
        [] [taskOfB]).resp.status = 404)
    ∧ ((deleteTaskById { user := some "A", rateOk := true, dbOk := true, now := 1 } "tb"
        [taskOfB]).resp.status = 200) := by
  have h := claim_C1_isolation "A" "tb" [taskOfB] []
    { user := some "A", rateOk := true, dbOk := true, now := 1 }
    rfl rfl rfl (by decide) rfl ([] : Body)
  refine ⟨h.1.1, ?_, h.2.2.1⟩
  have hupd : taskUpdateSafeParse ([] : Body)
      = Except.ok ⟨none, none, none, none⟩ := rfl
  exact (h.2.1 ⟨none, none, none, none⟩ hupd).1

/-- The per-request ordering/coverage property of claim C4 on one event
trace: every cache invalidation is preceded by a successful persistence
write and followed by the response, carries the owner's full pattern; no
invalidation ever follows a failed write; and a successful modifying write
is always followed by an invalidation. -/
def invalSpec (u : String) (tr : List Ev) : Prop :=
  (∀ j p, tr.get? j = some (Ev.cacheInval p) →
      (∃ i m, i < j ∧ tr.get? i = some (Ev.dbWrite true m))
      ∧ (∃ k st, j < k ∧ tr.get? k = some (Ev.respond st))
      ∧ p = userCachePattern u)
  ∧ (∀ i m, tr.get? i = some (Ev.dbWrite false m) →
      ∀ j p, ¬ tr.get? j = some (Ev.cacheInval p))
  ∧ ((∃ i, tr.get? i = some (Ev.dbWrite true true)) →
      ∃ j p, tr.get? j = some (Ev.cacheInval p))

theorem invalSpec_respondOnly (u : String) (s : Nat) :
    invalSpec u [Ev.respond s] := by
  refine ⟨?_, ?_, ?_⟩
  · intro j p hj
    match j with
    | 0 => simp at hj
    | n + 1 => simp at hj
  · intro i m hi
    match i with
    | 0 => simp at hi
    | n + 1 => simp at hi
  · rintro ⟨i, hi⟩
    match i with
    | 0 => simp at hi
    | n + 1 => simp at hi

theorem invalSpec_writeFailed (u : String) (s : Nat) :
    invalSpec u [Ev.dbWrite false false, Ev.respond s] := by
  refine ⟨?_, ?_, ?_⟩
  · intro j p hj
    match j with
    | 0 => simp at hj
    | 1 => simp at hj
    | n + 2 => simp at hj
  · intro i m hi j p hj
    match j with
    | 0 => simp at hj
    | 1 => simp at hj
    | n + 2 => simp at hj
  · rintro ⟨i, hi⟩
    match i with
    | 0 => simp at hi
    | 1 => simp at hi
    | n + 2 => simp at hi

theorem invalSpec_writeNoMatch (u : String) (s : Nat) :
    invalSpec u [Ev.dbWrite true false, Ev.respond s] := by
  refine ⟨?_, ?_, ?_⟩
  · intro j p hj
    match j with
    | 0 => simp at hj
    | 1 => simp at hj
    | n + 2 => simp at hj
  · intro i m hi
    match i with
    | 0 => simp at hi
    | 1 => simp at hi
    | n + 2 => simp at hi
  · rintro ⟨i, hi⟩
    match i with
    | 0 => simp at hi
    | 1 => simp at hi
    | n + 2 => simp at hi

theorem invalSpec_writeInval (u : String) (m : Bool) (s : Nat) :
    invalSpec u [Ev.dbWrite true m, Ev.cacheInval (userCachePattern u), Ev.respond s] := by
  refine ⟨?_, ?_, ?_⟩
  · intro j p hj
    match j with
    | 0 => simp at hj
    | 1 =>
        simp at hj
        subst hj
        exact ⟨⟨0, m, by omega, rfl⟩, ⟨2, s, by omega, rfl⟩, rfl⟩
    | 2 => simp at hj
    | n + 3 => simp at hj
  · intro i m' hi
    match i with
    | 0 => simp at hi
    | 1 => simp at hi
    | 2 => simp at hi
    | n + 3 => simp at hi
  · intro _
    exact ⟨1, userCachePattern u, rfl⟩

theorem nodup_const_length_le_one {α : Type} (l : List α) (c : α)
    (hnd : l.Nodup) (hall : ∀ x ∈ l, x = c) : l.length ≤ 1 := by
  match l with
  | [] => simp
  | [x] => simp
  | x :: y :: rest =>
      exfalso
      have hx := hall x (by simp)
      have hy := hall y (by simp)
      have hne : x ≠ y := by
        have hh := List.nodup_cons.mp hnd
        exact fun e => hh.1 (e ▸ List.mem_cons_self y rest)
      exact hne (hx.trans hy.symm)

theorem filter_by_id_short (db : List TaskRow) (i u : String)
    (hids : (db.map TaskRow.id).Nodup) :
    (db.filter (fun t => t.id == i && t.user_id == u)).length ≤ 1 := by
  have hsub : List.Sublist
      ((db.filter (fun t => t.id == i && t.user_id == u)).map TaskRow.id)
      (db.map TaskRow.id) := (List.filter_sublist db).map TaskRow.id
  have hnd := hsub.nodup hids
  have hall : ∀ x ∈ (db.filter (fun t => t.id == i && t.user_id == u)).map TaskRow.id,
      x = i := by
    intro x hx
    rcases List.mem_map.mp hx with ⟨t, ht, rfl⟩
    have hft := (List.mem_filter.mp ht).2
    rw [Bool.and_eq_true, beq_iff_eq, beq_iff_eq] at hft
    exact hft.1
  have hlen := nodup_const_length_le_one _ i hnd hall
  simpa using hlen

/-- C4: in each mutating handler (POST, PUT, DELETE on tasks), cache
invalidation of the owner's entries is strictly sequenced after a
successful persistence write and before the response — it never precedes
the write and never happens when the write fails — always emitting the
pattern `*:{u}*`, which covers the owner's entire cache set: the
collection key `tasks:{u}` and every single-task key `task:{u}:{taskId}`.
(Task ids are assumed pairwise distinct, the table's primary-key
invariant.) -/
theorem claim_C4_invalidationOrder (ctx : Ctx) (u : String) (hu : ctx.user = some u)
    (body : Body) (nid id : String) (db : List TaskRow)
    (hids : (db.map TaskRow.id).Nodup) (hmeta : metaFree u = true) :
    invalSpec u (postTasks ctx body nid db).events
    ∧ invalSpec u (putTaskById ctx id body db).events
    ∧ invalSpec u (deleteTaskById ctx id db).events
    ∧ (globMatch (userCachePattern u).data (getUserTasksKey u).data = true
       ∧ ∀ tid, globMatch (userCachePattern u).data (getUserTaskKey u tid).data = true) := by
  refine ⟨?_, ?_, ?_, ?_⟩
  · unfold postTasks
    rw [hu]
    by_cases hr : ctx.rateOk = true
    · simp only [hr, Bool.not_true, Bool.false_eq_true, if_false]
      cases hp : taskCreateSafeParse body with
      | error is => exact invalSpec_respondOnly u 400
      | ok d =>
          by_cases hdb : ctx.dbOk = true
          · simp only [hdb, Bool.not_true, Bool.false_eq_true, if_false]
            exact invalSpec_writeInval u true 201
          · rw [Bool.not_eq_true] at hdb
            simp only [hdb, Bool.not_false, if_true]
            exact invalSpec_writeFailed u 500
    · rw [Bool.not_eq_true] at hr
      simp only [hr, Bool.not_false, if_true]
      exact invalSpec_respondOnly u 429
  · unfold putTaskById
    rw [hu]
    by_cases hr : ctx.rateOk = true
    · simp only [hr, Bool.not_true, Bool.false_eq_true, if_false]
      cases hp : taskUpdateSafeParse body with
      | error is => exact invalSpec_respondOnly u 400
      | ok upd =>
          by_cases hdb : ctx.dbOk = true
          · simp only [hdb, Bool.not_true, Bool.false_eq_true, if_false]
            rcases hm : db.filter (fun t => t.id == id && t.user_id == u) with
              _ | ⟨t1, _ | ⟨t2, rest⟩⟩
            · rw [hm]
              exact invalSpec_writeNoMatch u 404
            · rw [hm]
              exact invalSpec_writeInval u true 200
            · exfalso
              have hlen := filter_by_id_short db id u hids
              rw [hm] at hlen
              simp at hlen
          · rw [Bool.not_eq_true] at hdb
            simp only [hdb, Bool.not_false, if_true]
            exact invalSpec_writeFailed u 500
    · rw [Bool.not_eq_true] at hr
      simp only [hr, Bool.not_false, if_true]
      exact invalSpec_respondOnly u 429
  · unfold deleteTaskById
    rw [hu]
    by_cases hr : ctx.rateOk = true
    · simp only [hr, Bool.not_true, Bool.false_eq_true, if_false]
      by_cases hdb : ctx.dbOk = true
      · simp only [hdb, Bool.not_true, Bool.false_eq_true, if_false]
        exact invalSpec_writeInval u (db.any (fun t => t.id == id && t.user_id == u)) 200
      · rw [Bool.not_eq_true] at hdb
        simp only [hdb, Bool.not_false, if_true]
        exact invalSpec_writeFailed u 500
    · rw [Bool.not_eq_true] at hr
      simp only [hr, Bool.not_false, if_true]
      exact invalSpec_respondOnly u 429
  · constructor
    · exact (globMatch_userCachePattern u hmeta _).mpr (colon_u_infix_tasksKey u)
    · intro tid
      exact (globMatch_userCachePattern u hmeta _).mpr (colon_u_infix_taskKey u tid)

/-- C4 witness: concrete POST that inserts and invalidates. -/
theorem claim_C4_witness :
    invalSpec "A" (postTasks { user := some "A", rateOk := true, dbOk := true, now := 3 }
        [("title", JVal.str "x"), ("status", JVal.str "todo")] "t1" []).events :=
  (claim_C4_invalidationOrder
    { user := some "A", rateOk := true, dbOk := true, now := 3 } "A" rfl
    [("title", JVal.str "x"), ("status", JVal.str "todo")] "t1" "zz" []
    (by decide) (by decide)).1

theorem recentCount_full (hist : List Nat) (now : Nat)
    (h : ∀ t ∈ hist, inWindow now t = true) :
    recentCount hist now = hist.length := by
  unfold recentCount
  rw [List.filter_eq_self.mpr h]

theorem recentCount_empty (hist : List Nat) (now : Nat)
    (h : ∀ t ∈ hist, inWindow now t = false) :
    recentCount hist now = 0 := by
  unfold recentCount
  rw [List.filter_eq_nil_iff.mpr (fun a ha => by rw [h a ha]; exact Bool.noConfusion)]
  rfl

theorem foldrMinAux_mem (l : List Nat) (m : Nat)
    (h : l.foldr (fun t acc => match acc with
        | none => some t
        | some m' => some (if t ≤ m' then t else m')) none = some m) : m ∈ l := by
  induction l generalizing m with
  | nil => simp at h
  | cons x xs ih =>
      rw [List.foldr_cons] at h
      cases hx : xs.foldr (fun t acc => match acc with
          | none => some t
          | some m' => some (if t ≤ m' then t else m')) none with
      | none =>
          rw [hx] at h
          simp only [Option.some.injEq] at h
          rw [← h]
          exact List.mem_cons_self x xs
      | some m' =>
          rw [hx] at h
          simp only [Option.some.injEq] at h
          by_cases hxm : x ≤ m'
          · rw [if_pos hxm] at h
            rw [← h]
            exact List.mem_cons_self x xs
          · rw [if_neg hxm] at h
            rw [← h]
            exact List.mem_cons_of_mem x (ih m' hx)

theorem foldrMinAux_isSome (l : List Nat) (hne : l ≠ []) :
    ∃ m, l.foldr (fun t acc => match acc with
        | none => some t
        | some m' => some (if t ≤ m' then t else m')) none = some m := by
  cases l with
  | nil => exact absurd rfl hne
  | cons x xs =>
      rw [List.foldr_cons]
      cases hx : xs.foldr (fun t acc => match acc with
          | none => some t
          | some m' => some (if t ≤ m' then t else m')) none with
      | none => exact ⟨x, rfl⟩
      | some m' => exact ⟨if x ≤ m' then x else m', rfl⟩

theorem windowEnd_gt_now (hist : List Nat) (now : Nat)
    (h : 0 < recentCount hist now) : now < windowEnd hist now := by
  have hne : hist.filter (inWindow now) ≠ [] := by
    intro hE
    unfold recentCount at h
    rw [hE] at h
    simp at h
  rcases foldrMinAux_isSome _ hne with ⟨m, hm⟩
  have hmem : m ∈ hist.filter (inWindow now) := foldrMinAux_mem _ m hm
  have hwin : inWindow now m = true := (List.mem_filter.mp hmem).2
  have hm0 : oldestIn hist now = some m := hm
  unfold windowEnd
  rw [hm0]
  unfold inWindow at hwin
  rw [Bool.and_eq_true, decide_eq_true_eq, decide_eq_true_eq] at hwin
  exact hwin.2

theorem runChecks_all_ok (cap s : Nat) (ts : List Nat) :
    ∀ hist : List Nat,
    (∀ h ∈ hist, s ≤ h ∧ h < s + windowMs) →
    (∀ t ∈ ts, s ≤ t ∧ t < s + windowMs) →
    (∀ h ∈ hist, ∀ t ∈ ts, h ≤ t) →
    List.Pairwise (fun a b => a ≤ b) ts →
    hist.length + ts.length ≤ cap →
    (∀ r ∈ (runChecks cap hist ts).1, r = true)
    ∧ (runChecks cap hist ts).2 = ts.reverse ++ hist := by
  induction ts with
  | nil =>
      intro hist _ _ _ _ _
      exact ⟨by intro r hr; simp [runChecks] at hr, by simp [runChecks]⟩
  | cons t ts ih =>
      intro hist hh ht hord hsort hlen
      have hcnt : recentCount hist t = hist.length := by
        apply recentCount_full
        intro h hh'
        have h1 : h ≤ t := hord h hh' t (List.mem_cons_self t ts)
        have h2 : t < h + windowMs := by
          have ha := (ht t (List.mem_cons_self t ts)).2
          have hb := (hh h hh').1
          omega
        unfold inWindow
        rw [Bool.and_eq_true, decide_eq_true_eq, decide_eq_true_eq]
        exact ⟨h1, h2⟩
      have hsucc : recentCount hist t < cap := by
        rw [hcnt]
        simp only [List.length_cons] at hlen
        omega
      have hstep : slidingWindowLimit cap hist t
          = ({ success := true, limit := cap,
               remaining := cap - (recentCount hist t + 1),
               reset := windowEnd (t :: hist) t }, t :: hist) := by
        unfold slidingWindowLimit
        rw [if_pos hsucc]
      have hh2 : ∀ h ∈ t :: hist, s ≤ h ∧ h < s + windowMs := by
        intro h hh'
        rcases List.mem_cons.mp hh' with rfl | hmem
        · exact ht h (List.mem_cons_self h ts)
        · exact hh h hmem
      have ht2 : ∀ t' ∈ ts, s ≤ t' ∧ t' < s + windowMs :=
        fun t' ht' => ht t' (List.mem_cons_of_mem t ht')
      have hord2 : ∀ h ∈ t :: hist, ∀ t' ∈ ts, h ≤ t' := by
        intro h hh' t' ht'
        rcases List.mem_cons.mp hh' with rfl | hmem
        · exact (List.pairwise_cons.mp hsort).1 t' ht'
        · exact Nat.le_trans (hord h hmem t (List.mem_cons_self t ts))
            ((List.pairwise_cons.mp hsort).1 t' ht')
      have hlen2 : (t :: hist).length + ts.length ≤ cap := by
        simp only [List.length_cons] at hlen ⊢
        omega
      have ihh := ih (t :: hist) hh2 ht2 hord2 (List.pairwise_cons.mp hsort).2 hlen2
      constructor
      · intro r hr
        rw [runChecks] at hr
        rw [hstep] at hr
        simp only [List.mem_cons] at hr
        rcases hr with rfl | hr
        · rfl
        · exact ihh.1 r hr
      · rw [runChecks]
        rw [hstep]
        simp only
        rw [ihh.2]
        simp

/-- C2: for every limiter kind (read cap 60, write cap 20, auth cap 10) and
any one identifier key (whose success history the store threads): starting
from an empty history, N = cap checks inside one trailing 60-second window
all return success; the (N+1)th check inside that window returns
`success = false` with `retryAfter = ceil((windowEnd − now) / 1000)`
seconds, which is positive; and once the window has fully elapsed a new
check with the same key succeeds again. (The sliding-window algorithm
itself lives in the external `@upstash/ratelimit` package and is modelled
from the spec; caps and the retry-after computation are from the
repository's rate-limit module.) -/
theorem claim_C2_slidingWindow (kind : LimiterKind) (ts : List Nat)
    (s now now2 : Nat)
    (hsort : List.Pairwise (fun a b => a ≤ b) ts)
    (hwin : ∀ t ∈ ts, s ≤ t ∧ t < s + windowMs)
    (hlen : ts.length = limiterCap kind)
    (hnow : ∀ t ∈ ts, t ≤ now) (hnow2 : now < s + windowMs)
    (hlate : ∀ t ∈ ts, t + windowMs ≤ now2) :
    (limiterCap LimiterKind.read = 60 ∧ limiterCap LimiterKind.write = 20
      ∧ limiterCap LimiterKind.auth = 10)
    ∧ (∀ r ∈ (runChecks (limiterCap kind) [] ts).1, r = true)
    ∧ ((checkRateLimit (limiterCap kind)
          (some (runChecks (limiterCap kind) [] ts).2) now).result.success = false
      ∧ (checkRateLimit (limiterCap kind)
          (some (runChecks (limiterCap kind) [] ts).2) now).result.retryAfter
        = some (ceilDiv1000
            (windowEnd (runChecks (limiterCap kind) [] ts).2 now - now))
      ∧ (∀ ra, (checkRateLimit (limiterCap kind)
          (some (runChecks (limiterCap kind) [] ts).2) now).result.retryAfter
            = some ra → 0 < ra))
    ∧ (checkRateLimit (limiterCap kind)
        (some (runChecks (limiterCap kind) [] ts).2) now2).result.success = true := by
  have hrun := runChecks_all_ok (limiterCap kind) s ts []
    (by intro h hh; simp at hh)
    hwin
    (by intro h hh; simp at hh)
    hsort
    (by simp [hlen])
  have hist_eq : (runChecks (limiterCap kind) [] ts).2 = ts.reverse := by
    rw [hrun.2]
    simp
  have hmemhist : ∀ h ∈ (runChecks (limiterCap kind) [] ts).2, h ∈ ts := by
    intro h hh
    rw [hist_eq] at hh
    exact List.mem_reverse.mp hh
  have hcnt_now : recentCount (runChecks (limiterCap kind) [] ts).2 now
      = ts.length := by
    rw [hist_eq]
    rw [recentCount_full]
    · simp
    · intro t ht'
      have htm := List.mem_reverse.mp ht'
      have h1 : t ≤ now := hnow t htm
      have h2 : now < t + windowMs := by
        have := (hwin t htm).1
        omega
      unfold inWindow
      rw [Bool.and_eq_true, decide_eq_true_eq, decide_eq_true_eq]
      exact ⟨h1, h2⟩
  have hfail : ¬ (recentCount (runChecks (limiterCap kind) [] ts).2 now
      < limiterCap kind) := by
    rw [hcnt_now, hlen]
    omega
  have hcnt2 : recentCount (runChecks (limiterCap kind) [] ts).2 now2 = 0 := by
    apply recentCount_empty
    intro t ht'
    have htm := hmemhist t ht'
    have hlt := hlate t htm
    have hfalse : ¬ (now2 < t + windowMs) := by omega
    unfold inWindow
    simp [hfalse]
  have hsw_now : slidingWindowLimit (limiterCap kind)
      (runChecks (limiterCap kind) [] ts).2 now
      = ({ success := false, limit := limiterCap kind, remaining := 0,
           reset := windowEnd (runChecks (limiterCap kind) [] ts).2 now },
         (runChecks (limiterCap kind) [] ts).2) := by
    unfold slidingWindowLimit
    rw [if_neg hfail]
  have hsw_now2 : slidingWindowLimit (limiterCap kind)
      (runChecks (limiterCap kind) [] ts).2 now2
      = ({ success := true, limit := limiterCap kind,
           remaining := limiterCap kind
             - (recentCount (runChecks (limiterCap kind) [] ts).2 now2 + 1),
           reset := windowEnd
             (now2 :: (runChecks (limiterCap kind) [] ts).2) now2 },
         now2 :: (runChecks (limiterCap kind) [] ts).2) := by
    unfold slidingWindowLimit
    rw [if_pos (by rw [hcnt2]; cases kind <;> decide)]
  refine ⟨⟨rfl, rfl, rfl⟩, hrun.1, ⟨?_, ?_, ?_⟩, ?_⟩
  · simp [checkRateLimit, hsw_now]
  · simp [checkRateLimit, hsw_now]
  · intro ra hra
    have hgt := windowEnd_gt_now (runChecks (limiterCap kind) [] ts).2 now
      (by rw [hcnt_now, hlen]; cases kind <;> decide)
    simp [checkRateLimit, hsw_now] at hra
    rw [← hra]
    unfold ceilDiv1000
    apply (Nat.le_div_iff_mul_le (by decide)).mpr
    omega
  · simp [checkRateLimit, hsw_now2]

/-- C2 witness: the auth limiter (cap 10) with ten checks at instants 0..9,
an 11th check at instant 100, and a later check after the window. -/
theorem claim_C2_witness :
    (∀ r ∈ (runChecks (limiterCap LimiterKind.auth) []
        [0, 1, 2, 3, 4, 5, 6, 7, 8, 9]).1, r = true)
    ∧ (checkRateLimit (limiterCap LimiterKind.auth)
        (some (runChecks (limiterCap LimiterKind.auth) []
          [0, 1, 2, 3, 4, 5, 6, 7, 8, 9]).2) 100).result.success = false
    ∧ (checkRateLimit (limiterCap LimiterKind.auth)
        (some (runChecks (limiterCap LimiterKind.auth) []
          [0, 1, 2, 3, 4, 5, 6, 7, 8, 9]).2) 70000).result.success = true := by
  have h := claim_C2_slidingWindow LimiterKind.auth
    [0, 1, 2, 3, 4, 5, 6, 7, 8, 9] 0 100 70000
    (by decide) (by decide) rfl (by decide) (by decide) (by decide)
  exact ⟨h.2.1, h.2.2.1.1, h.2.2.2⟩
